import Mathlib

/-!
Verification of the Pokemon-Name-Game repository.

The repository is a multiplayer species-naming game.  The authoritative
Game Session Engine (timer, guessed map, event log, guess resolution) is
the Flask backend; the repository sources available here contain the React
client (`src/frontend/client/pages/Game.tsx` and its variant embedded in
`src/frontend/client/components/ui/Placeholder.tsx`).  Server-side
definitions below are therefore modelled from the specification document,
client-side definitions are translated from the TypeScript client code.

Time is modelled at millisecond resolution with integers (`Int`),
durations in whole seconds (`Nat`), matching the spec ("duration: seconds",
"timeLeft ... rounded up to whole seconds") and the client's use of
`Date.now()` epoch milliseconds.
-/

set_option maxRecDepth 8192

namespace PokemonGame

/-- Ceiling division of an integer by a positive integer:
`ceilDiv a b = ⌈a / b⌉` for `b > 0`.  Used to model JavaScript
`Math.ceil(x / 1000)` on millisecond quantities. -/
def ceilDiv (a b : Int) : Int := -((-a) / b)

theorem ceilDiv_le_ceilDiv (b : Int) (hb : 0 < b) {a c : Int} (h : a ≤ c) :
    ceilDiv a b ≤ ceilDiv c b := by
  unfold ceilDiv
  have : (-c) / b ≤ (-a) / b := Int.ediv_le_ediv hb (by omega)
  omega

theorem ceilDiv_mul_self (n b : Int) (hb : 0 < b) : ceilDiv (n * b) b = n := by
  unfold ceilDiv
  have h : -(n * b) = (-n) * b := by ring
  rw [h, Int.mul_ediv_cancel _ (by omega)]
  ring

theorem ceilDiv_nonneg (a b : Int) (hb : 0 < b) (ha : 0 ≤ a) :
    0 ≤ ceilDiv a b := by
  have h0 : ceilDiv 0 b = 0 := by
    unfold ceilDiv
    simp
  calc 0 = ceilDiv 0 b := h0.symm
    _ ≤ ceilDiv a b := ceilDiv_le_ceilDiv b hb ha

/-- Error / rejection reason codes.
Modelled from the spec: §7 "Error taxonomy (reason codes, not exception
types): `empty`, `not_found` (species or lobby), `duplicate`,
`not_started`, `paused`, `game_over`, `invalid_state`, `name_taken`."
The backend emitting these codes is not in the available sources. -/
inductive ErrCode
  | not_started
  | paused
  | game_over
  | empty
  | not_found
  | duplicate
  | invalid_state
  | name_taken
deriving DecidableEq, Repr

/-- The wire string for each reason code. -/
def reasonCode : ErrCode → String
  | .not_started => "not_started"
  | .paused => "paused"
  | .game_over => "game_over"
  | .empty => "empty"
  | .not_found => "not_found"
  | .duplicate => "duplicate"
  | .invalid_state => "invalid_state"
  | .name_taken => "name_taken"

/-- A guess event.
Modelled from the spec: §3 "GuessEvent: {id: unique, player: string,
guess: string (raw, as submitted), accepted: bool, reason: code | null,
rank: species-rank | null, timestamp}"; the backend append-only log code
is not in the available sources. -/
structure GuessEvent where
  id : Nat
  player : String
  guess : String
  accepted : Bool
  reason : Option ErrCode
  rank : Option Nat
  ts : Int
deriving DecidableEq, Repr

/-- Stored session status.  `Ended` is not stored: the spec says the
session "transitions to Ended when `elapsed >= duration` (lazily detected
on read, not by a background timer)", so `Ended` only appears in the
observed status `ObsStatus`. -/
inductive Status
  | notStarted
  | running
  | paused
deriving DecidableEq, Repr

/-- Status as observed on a read at some instant. -/
inductive ObsStatus
  | notStarted
  | running
  | paused
  | ended
deriving DecidableEq, Repr

/-- A player.
Modelled from the spec: §3 "Player: {name: string (unique within a
lobby), score: non-negative integer}"; the backend roster code is not in
the available sources. -/
structure Player where
  name : String
  score : Nat
deriving DecidableEq, Repr

/-- The per-lobby game session state.
Modelled from the spec: §3 "GameSession: {status, duration: seconds,
startedAt: timestamp | null, pausedAccum: seconds (total time spent
paused), pauseStartedAt: timestamp | null, guessed: mapping from
species-rank to the name that scored it, log: bounded ordered sequence of
GuessEvent, ...}"; the backend session class is not in the available
sources.  Timestamps and `pausedAccum` are kept in milliseconds, the
`duration` in whole seconds, and the log oldest-first. -/
structure GameSession where
  status : Status
  duration : Nat
  startedAt : Option Int
  pausedAccum : Int
  pauseStartedAt : Option Int
  guessed : List (Nat × String)
  log : List GuessEvent
  players : List Player
  nextId : Nat
deriving DecidableEq, Repr

/-- Elapsed play time in milliseconds.
Modelled from the spec: §3 "elapsed = (now - startedAt) - pausedAccum -
(if Paused: now - pauseStartedAt else 0)"; zero before the session has
started. -/
def elapsedMs (s : GameSession) (now : Int) : Int :=
  match s.startedAt with
  | none => 0
  | some st =>
      (now - st) - s.pausedAccum -
        (match s.pauseStartedAt with
         | some ps => now - ps
         | none => 0)

/-- The status a read at instant `now` observes.
Modelled from the spec: §4.1 "once time has elapsed ≥ duration the
session reports `Ended` on every subsequent read". -/
def statusAt (s : GameSession) (now : Int) : ObsStatus :=
  match s.status with
  | .notStarted => .notStarted
  | .running =>
      if (s.duration : Int) * 1000 ≤ elapsedMs s now then .ended else .running
  | .paused =>
      if (s.duration : Int) * 1000 ≤ elapsedMs s now then .ended else .paused

/-- Remaining time in whole seconds.
Modelled from the spec: §4.1 "`timeLeft()`: pure function of current
state and `now`; `max(0, duration - elapsed)`, rounded up to whole
seconds" and §7 "`timeLeft` on `NotStarted` always returns `duration`
without touching `startedAt`". -/
def timeLeftS (s : GameSession) (now : Int) : Int :=
  match s.status with
  | .notStarted => (s.duration : Int)
  | _ => max 0 (ceilDiv ((s.duration : Int) * 1000 - elapsedMs s now) 1000)

/-- Structural invariant of a session.
Modelled from the spec: §3 "Invariant: `status == NotStarted ⇒ startedAt
== null`; `status == Paused ⇒ pauseStartedAt != null`"; a running session
has no open pause interval and a started session records its start. -/
def StateWF (s : GameSession) : Prop :=
  (s.status = .notStarted → s.startedAt = none) ∧
  (s.status = .paused → s.pauseStartedAt ≠ none) ∧
  (s.status = .running → s.pauseStartedAt = none) ∧
  (s.status ≠ .notStarted → s.startedAt ≠ none)

/-- The `start` operation.
Modelled from the spec: §4.1 "`start()`: valid only from `NotStarted` or
`Paused`.  From `NotStarted`: sets `startedAt = now`, `status = Running`.
From `Paused`: adds `(now - pauseStartedAt)` to `pausedAccum`, clears
`pauseStartedAt`, `status = Running`.  Idempotency: calling `start()`
while already `Running` is a no-op success ... Fails with `GameOverError`
if elapsed ≥ duration."  The backend route is not in the available
sources. -/
def start (s : GameSession) (now : Int) : Except ErrCode GameSession :=
  match statusAt s now with
  | .ended => .error .game_over
  | .notStarted => .ok { s with status := .running, startedAt := some now }
  | .running => .ok s
  | .paused =>
      match s.pauseStartedAt with
      | some ps =>
          .ok { s with status := .running,
                       pausedAccum := s.pausedAccum + (now - ps),
                       pauseStartedAt := none }
      | none => .ok { s with status := .running, pauseStartedAt := none }

/-- The `pause` operation.
Modelled from the spec: §4.1 "`pause()`: valid only from `Running`.  Sets
`pauseStartedAt = now`, `status = Paused`.  Fails with
`InvalidStateError` if not Running, `GameOverError` if already ended."
The backend route is not in the available sources. -/
def pause (s : GameSession) (now : Int) : Except ErrCode GameSession :=
  match statusAt s now with
  | .ended => .error .game_over
  | .running => .ok { s with status := .paused, pauseStartedAt := some now }
  | _ => .error .invalid_state

/-- Lower-casing of a string, character by character (the executable
counterpart of `String.toLower`, whose core definition does not reduce
in the kernel). -/
def strLower (s : String) : String := ⟨s.data.map Char.toLower⟩

/-- Whitespace trimming of a string (the executable counterpart of
`String.trim` / JavaScript `String.prototype.trim`). -/
def strTrim (s : String) : String :=
  ⟨((s.data.dropWhile Char.isWhitespace).reverse.dropWhile
      Char.isWhitespace).reverse⟩

/-- Normalization of a raw guess.
Modelled from the spec: §4.2 step 2 "Normalize `rawText` (case-fold,
trim)".  The backend validator is not in the available sources. -/
def normalize (raw : String) : String := strLower (strTrim raw)

/-- Resolution of a raw guess against the species catalog.
Modelled from the spec: §2 "SpeciesCatalog ... ordered list of canonical
species names with fixed numeric ranks" and §4.2 step 2 "resolve against
SpeciesCatalog by exact normalized match".  A species' rank is its
1-based position in the catalog.  The backend validator is not in the
available sources. -/
def resolve (catalog : List String) (raw : String) : Option Nat :=
  (catalog.findIdx? (fun n => strLower n == normalize raw)).map (· + 1)

/-- Score increment on an accepted guess.
Modelled from the spec: §4.2 step 4 "increment that player's score by
exactly 1".  The backend roster code is not in the available sources. -/
def incScore (players : List Player) (name : String) : List Player :=
  players.map fun p => if p.name = name then { p with score := p.score + 1 } else p

/-- Capacity of the bounded event log. -/
def LOG_CAP : Nat := 500

/-- Bounded append to the event log (log kept oldest-first).
Modelled from the spec: §3 "log is a bounded ring retaining the most
recent N (≈500) events, oldest dropped first".  The backend log code is
not in the available sources. -/
def appendBounded (log : List GuessEvent) (e : GuessEvent) : List GuessEvent :=
  (log ++ [e]).drop ((log ++ [e]).length - LOG_CAP)

/-- Result of a `submitGuess` call as returned to the gateway. -/
structure SubmitResult where
  accepted : Bool
  reason : Option ErrCode
  positions : List Nat
  event : Option GuessEvent
deriving DecidableEq, Repr

/-- The `submitGuess` operation.
Modelled from the spec: §4.2 steps 1–5: status checks first
(`not_started` / `paused` / `game_over`), then the empty check before any
lookup, then resolution (`not_found` on no match), then the duplicate
check against `guessed`, and finally `guessed[rank] = player`, a score
increment of exactly 1 and an accepted event.  Per step 5,
"implementations may choose not to log purely-malformed/empty attempts";
this model logs `not_found`, `duplicate` and accepted events only.  The
backend route is not in the available sources. -/
def submitGuess (catalog : List String) (s : GameSession)
    (player raw : String) (now : Int) : SubmitResult × GameSession :=
  match statusAt s now with
  | .notStarted => (⟨false, some .not_started, [], none⟩, s)
  | .paused => (⟨false, some .paused, [], none⟩, s)
  | .ended => (⟨false, some .game_over, [], none⟩, s)
  | .running =>
    if strTrim raw = "" then (⟨false, some .empty, [], none⟩, s)
    else
      match resolve catalog raw with
      | none =>
          let ev : GuessEvent :=
            ⟨s.nextId, player, raw, false, some .not_found, none, now⟩
          (⟨false, some .not_found, [], some ev⟩,
           { s with log := appendBounded s.log ev, nextId := s.nextId + 1 })
      | some rank =>
          match s.guessed.lookup rank with
          | some _ =>
              let ev : GuessEvent :=
                ⟨s.nextId, player, raw, false, some .duplicate, some rank, now⟩
              (⟨false, some .duplicate, [], some ev⟩,
               { s with log := appendBounded s.log ev, nextId := s.nextId + 1 })
          | none =>
              let ev : GuessEvent :=
                ⟨s.nextId, player, raw, true, none, some rank, now⟩
              (⟨true, none, [rank], some ev⟩,
               { s with guessed := (rank, player) :: s.guessed,
                        players := incScore s.players player,
                        log := appendBounded s.log ev,
                        nextId := s.nextId + 1 })

/-- A sequence of `submitGuess` calls `(player, raw, now)` executed in
the serialized order in which they acquire the lobby lock (spec §5). -/
def runGuesses (catalog : List String) (s : GameSession)
    (calls : List (String × String × Int)) : GameSession :=
  calls.foldl (fun st c => (submitGuess catalog st c.1 c.2.1 c.2.2).2) s

/-- The ranks referenced by the accepted events of a log. -/
def acceptedRanks (log : List GuessEvent) : List Nat :=
  log.filterMap fun e => if e.accepted then e.rank else none

/-- Invariant tying the event log to the guessed map: every accepted
event's rank is a key of `guessed`, and no two accepted events reference
the same rank. -/
def LogWF (s : GameSession) : Prop :=
  (∀ e ∈ s.log, e.accepted = true →
      ∃ r, e.rank = some r ∧ (List.lookup r s.guessed).isSome = true) ∧
  (acceptedRanks s.log).Nodup

/-- A concrete running session used by witnesses: duration 900 s,
started at epoch 0, never paused, empty roster apart from two players. -/
def sampleSession : GameSession where
  status := .running
  duration := 900
  startedAt := some 0
  pausedAccum := 0
  pauseStartedAt := none
  guessed := []
  log := []
  players := [⟨"A", 0⟩, ⟨"B", 0⟩]
  nextId := 0

/-!
## Client-side definitions, translated from the TypeScript client

`src/frontend/client/pages/Game.tsx` (and the variant embedded in
`src/frontend/client/components/ui/Placeholder.tsx`, whose timer and
guess logic is identical).
-/

/-- The client's last known server snapshot, from Game.tsx:
`lastServerRef = useRef<{ timeLeft: number; fetchedAt: number } | null>`.
`timeLeft` is the server-computed whole-second countdown, `fetchedAt` an
epoch-millisecond instant. -/
structure ServerSnap where
  timeLeft : Int
  fetchedAt : Int
deriving DecidableEq, Repr

/-- The client state read by the `timeLeft` useMemo in Game.tsx:
`started`, `paused`, `duration`, `startTs`, `lastServerRef`,
`monotonicRef`. -/
structure ClientTimer where
  started : Bool
  paused : Bool
  duration : Int
  startTs : Option Int
  lastServer : Option ServerSnap
  monotonic : Option Int
deriving DecidableEq, Repr

/-- The drift-corrected candidate value, from Game.tsx:
`const drift = (now - fetchedAt) / 1000;`
`const calc = Math.max(0, Math.ceil(snapshotLeft - drift));`
computed exactly over integer milliseconds. -/
def calcProj (snap : ServerSnap) (now : Int) : Int :=
  max 0 (ceilDiv (snap.timeLeft * 1000 - (now - snap.fetchedAt)) 1000)

/-- The client's displayed countdown, from the `timeLeft` useMemo in
Game.tsx (lines 148–174).  Returns the displayed value together with the
updated `monotonicRef` (the useMemo mutates the ref in its main branch).
The `st = 0` test models the JavaScript falsiness of `!startTs` when
`startTs` is `0`. -/
def projectTimeLeft (c : ClientTimer) (now : Int) : Int × Option Int :=
  if c.started = false then
    match c.lastServer with
    | some snap => (snap.timeLeft, c.monotonic)
    | none => (c.duration, c.monotonic)
  else if c.paused then
    match c.monotonic with
    | some m => (m, c.monotonic)
    | none =>
      match c.lastServer with
      | some snap => (snap.timeLeft, c.monotonic)
      | none => (c.duration, c.monotonic)
  else
    match c.lastServer, c.monotonic with
    | some snap, some m =>
        let calcv := calcProj snap now
        if calcv ≤ m then (calcv, some calcv) else (m, some m)
    | _, _ =>
        match c.startTs with
        | none => (c.duration, c.monotonic)
        | some st =>
            if st = 0 then (c.duration, c.monotonic)
            else (max 0 (ceilDiv (c.duration * 1000 - (now - st)) 1000), c.monotonic)

/-- The effect at Game.tsx lines 176–178:
`if (timeLeft === 0 && running) setRunning(false)`. -/
def runningAfterTick (timeLeft : Int) (running : Bool) : Bool :=
  if timeLeft = 0 ∧ running = true then false else running

/-- The request body sent by the client submit handler. -/
structure GuessRequest where
  lobby : String
  player : String
  guess : String
deriving DecidableEq, Repr

/-- The guard prefix of `submitGuess` in Game.tsx (lines 230–236): the
fetch request the handler issues, or `none` when a guard returns early:
`if (!running || paused || timeLeft <= 0) return;`
`const raw = input.trim(); if (!raw || !lobbyId || !playerName) return;`
`if (submittingRef.current) return;`. -/
def clientSubmitGuess (running paused : Bool) (timeLeft : Int)
    (input lobbyId playerName : String) (submitting : Bool) :
    Option GuessRequest :=
  if running = false ∨ paused = true ∨ timeLeft ≤ 0 then none
  else
    let raw := strTrim input
    if raw = "" ∨ lobbyId = "" ∨ playerName = "" then none
    else if submitting then none
    else some ⟨lobbyId, playerName, raw⟩

/-- Assignment `next[pos] = raw` on the client's guessed map, modelled as
an association-list update: replace the binding if the key is present,
append it otherwise. -/
def mapSet (g : List (Nat × String)) (pos : Nat) (raw : String) :
    List (Nat × String) :=
  if (g.lookup pos).isSome then
    g.map (fun kv => if kv.1 = pos then (pos, raw) else kv)
  else g ++ [(pos, raw)]

/-- One iteration of the loop body in Game.tsx: `if (!next[pos])
next[pos] = raw;`.  The JavaScript guard `!next[pos]` is true both when
`pos` is absent and when the stored value is the empty string, so a
binding to `""` is overwritten. -/
def optimisticStep (raw : String) (acc : List (Nat × String)) (pos : Nat) :
    List (Nat × String) :=
  match acc.lookup pos with
  | some v => if v = "" then mapSet acc pos raw else acc
  | none => mapSet acc pos raw

/-- The optimistic guessed-map update in Game.tsx (lines 259–268):
`const next = { ...g }; for (const pos of data.positions) { if
(!next[pos]) next[pos] = raw; } return next;`. -/
def optimisticGuessed (g : List (Nat × String)) (positions : List Nat)
    (raw : String) : List (Nat × String) :=
  positions.foldl (optimisticStep raw) g

/-- The fallback roster update in Game.tsx (lines 269–275):
`setPlayers(prev => prev.map(p => p.name === playerName ? { ...p, score:
p.score + 1 } : p))`. -/
def fallbackIncrement (players : List Player) (playerName : String) :
    List Player :=
  players.map fun p =>
    if p.name = playerName then { p with score := p.score + 1 } else p

/-- A guess event as the client reads it off the wire, with exactly the
fields the log-mapping code in Game.tsx accesses: `id`, `player`,
`guess`, `accepted`, `reason`, `ts`, `positions`. -/
structure WireEvent where
  id : Nat
  player : String
  guess : String
  accepted : Bool
  reason : Option String
  ts : Int
  positions : List Nat
deriving DecidableEq, Repr

/-- The client's log entry type, from the `GuessLogEntry` interface in
Game.tsx (lines 11–18). -/
structure ClientLogEntry where
  id : Nat
  player : String
  guess : String
  result : String
  atMs : Int
  positions : List Nat
deriving DecidableEq, Repr

/-- Conversion of one wire event, from the log mapping in Game.tsx:
`result: e.accepted ? "correct" : (e.reason || "not_found")`,
`at: Math.floor((e.ts || Date.now()) * 1000)`,
`positions: e.positions || []`.  The `= ""` and `= 0` tests model the
JavaScript falsiness checks of `||`; `e.player || ""` is the identity on
a string-valued field. -/
def convEntry (nowMs : Int) (e : WireEvent) : ClientLogEntry where
  id := e.id
  player := e.player
  guess := e.guess
  result :=
    if e.accepted then "correct"
    else
      match e.reason with
      | some r => if r = "" then "not_found" else r
      | none => "not_found"
  atMs := (if e.ts = 0 then nowMs else e.ts) * 1000
  positions := e.positions

/-- The client's log synchronisation, from Game.tsx (lines 117–138):
`game.log.slice(-500).map(...).reverse()` — take the last 500 entries of
the server's oldest-first log, convert them, and store newest-first. -/
def mapServerLog (nowMs : Int) (serverLog : List WireEvent) :
    List ClientLogEntry :=
  ((serverLog.drop (serverLog.length - 500)).map (convEntry nowMs)).reverse

/-- The reject reason codes for submit guess, from spec §6: "not_started,
paused, game_over, empty, not_found, duplicate". -/
def submitRejectReasons : List String :=
  ["not_started", "paused", "game_over", "empty", "not_found", "duplicate"]

/-- The result codes representable by the client's `GuessLogEntry.result`
union type, from Game.tsx lines 11–18:
`"correct" | "duplicate" | "not_found" | "game_over" | "not_started" |
"empty"`. -/
def guessLogResultCodes : List String :=
  ["correct", "duplicate", "not_found", "game_over", "not_started", "empty"]

/-- The friendly-message mapping, from `friendlyGuessMessage` in
`src/frontend/client/components/ui/Placeholder.tsx` (lines 102–115). -/
def friendlyGuessMessage (code : String) : String :=
  if code = "duplicate" then "Already guessed."
  else if code = "not_found" then "No matching Pokémon."
  else if code = "empty" then "Enter a Pokémon name first."
  else if code = "game_over" then "Game finished – start a new round."
  else if code = "not_started" then "Start the game first."
  else if code = "paused" ∨ code = "not_started_or_paused" then "Game is paused."
  else if code = "network_error" then "Network issue – try again."
  else if code = "rejected" then "Guess rejected."
  else String.replace code ("_") (" ")

/-- The sample session after player A's accepted guess for Bulbasaur at
t = 10 s. -/
def sampleAfterA : GameSession :=
  (submitGuess [("Bulbasaur" : String)] sampleSession ("A") ("bulbasaur")
    10000).2

/-- A concrete not-yet-started session used by witnesses. -/
def sampleNotStarted : GameSession where
  status := .notStarted
  duration := 900
  startedAt := none
  pausedAccum := 0
  pauseStartedAt := none
  guessed := []
  log := []
  players := [⟨"A", 0⟩]
  nextId := 0

/-- A concrete client timer state used by witnesses: started, not
paused, last server snapshot 800 s fetched at epoch 100 000 ms, with a
monotonic floor of 800 s. -/
def sampleTimer : ClientTimer where
  started := true
  paused := false
  duration := 900
  startTs := some 1
  lastServer := some ⟨800, 100000⟩
  monotonic := some 800

/-- The sample session paused at t = 100 s. -/
def samplePaused : GameSession :=
  { sampleSession with status := .paused, pauseStartedAt := some 100000 }

/-- The sample session resumed at t = 150 s of real time, carrying the
50 s pause in `pausedAccum`. -/
def sampleResumed : GameSession :=
  { sampleSession with status := .running, pausedAccum := 50000,
                       pauseStartedAt := none }

/-- The sample client timer in its paused state. -/
def samplePausedTimer : ClientTimer := { sampleTimer with paused := true }

/-!
## Theorems
-/

theorem ceilDiv_thousand_le (d e : Int) (he : 0 ≤ e) :
    ceilDiv (d * 1000 - e) 1000 ≤ d := by
  have h1 : ceilDiv (d * 1000 - e) 1000 ≤ ceilDiv (d * 1000) 1000 :=
    ceilDiv_le_ceilDiv 1000 (by norm_num) (by omega)
  have h2 : ceilDiv (d * 1000) 1000 = d := ceilDiv_mul_self d 1000 (by norm_num)
  omega

/-- C4: `timeLeft()` is a pure function of the current state and
`now` equal to `max(0, duration - elapsed)` rounded up to whole seconds
(with the NotStarted case returning the full duration), and whenever the
elapsed time is non-negative the returned value lies in `[0, duration]`. -/
theorem timeLeft_formula_and_bounds (s : GameSession) (now : Int)
    (h : 0 ≤ elapsedMs s now) :
    (s.status ≠ .notStarted →
        timeLeftS s now =
          max 0 (ceilDiv ((s.duration : Int) * 1000 - elapsedMs s now) 1000)) ∧
    (s.status = .notStarted → timeLeftS s now = (s.duration : Int)) ∧
    0 ≤ timeLeftS s now ∧ timeLeftS s now ≤ (s.duration : Int) := by
  have hd : (0 : Int) ≤ (s.duration : Int) := Int.natCast_nonneg _
  have hb : max 0 (ceilDiv ((s.duration : Int) * 1000 - elapsedMs s now) 1000)
      ≤ (s.duration : Int) := max_le hd (ceilDiv_thousand_le _ _ h)
  cases hst : s.status with
  | notStarted =>
      refine ⟨fun hne => absurd rfl hne, fun _ => ?_, ?_, ?_⟩ <;>
        simp [timeLeftS, hst, hd]
  | running =>
      refine ⟨fun _ => ?_, fun he => by simp at he, ?_, ?_⟩
      · simp only [timeLeftS, hst]
      · simp only [timeLeftS, hst]
        exact le_max_left _ _
      · simp only [timeLeftS, hst]
        exact hb
  | paused =>
      refine ⟨fun _ => ?_, fun he => by simp at he, ?_, ?_⟩
      · simp only [timeLeftS, hst]
      · simp only [timeLeftS, hst]
        exact le_max_left _ _
      · simp only [timeLeftS, hst]
        exact hb

/-- C4 witness: the bounds at a concrete running session and
instant. -/
theorem timeLeft_formula_and_bounds_witness :
    0 ≤ elapsedMs sampleSession 100000 ∧
    (0 ≤ timeLeftS sampleSession 100000 ∧
      timeLeftS sampleSession 100000 ≤ (sampleSession.duration : Int)) :=
  ⟨by decide, (timeLeft_formula_and_bounds sampleSession 100000 (by decide)).2.2⟩

/-- C3: while the client believes the game started and not paused,
for a fixed server snapshot and monotonic floor the displayed countdown
is antitone in `now`, and it never rises above the monotonic floor. -/
theorem countdown_monotone (c : ClientTimer) (snap : ServerSnap) (m : Int)
    (hs : c.started = true) (hp : c.paused = false)
    (hl : c.lastServer = some snap) (hm : c.monotonic = some m)
    (now1 now2 : Int) (h12 : now1 ≤ now2) :
    (projectTimeLeft c now2).1 ≤ (projectTimeLeft c now1).1 ∧
    (projectTimeLeft c now1).1 ≤ m := by
  have hcalc : calcProj snap now2 ≤ calcProj snap now1 := by
    have h1 : snap.timeLeft * 1000 - (now2 - snap.fetchedAt) ≤
        snap.timeLeft * 1000 - (now1 - snap.fetchedAt) := by omega
    exact max_le_max (le_refl 0) (ceilDiv_le_ceilDiv 1000 (by norm_num) h1)
  simp only [projectTimeLeft, hs, hp, hl, hm]
  norm_num
  constructor <;> split_ifs <;> omega

/-- C3 witness: monotonicity at a concrete timer state and pair of
instants. -/
theorem countdown_monotone_witness :
    (projectTimeLeft sampleTimer 103000).1 ≤
      (projectTimeLeft sampleTimer 101000).1 ∧
    (projectTimeLeft sampleTimer 101000).1 ≤ 800 :=
  countdown_monotone sampleTimer ⟨800, 100000⟩ 800 rfl rfl rfl rfl
    101000 103000 (by norm_num)

/-- C6: `timeLeft` on a NotStarted session returns the duration and
never reads `startedAt`; on the client, with the started flag false the
projection returns the last server value (or the duration) and is
independent of `startTs`. -/
theorem notStarted_reads_duration :
    (∀ (s : GameSession) (now : Int) (a : Option Int),
        s.status = .notStarted →
        timeLeftS s now = (s.duration : Int) ∧
        timeLeftS { s with startedAt := a } now = (s.duration : Int)) ∧
    (∀ (c : ClientTimer) (now : Int) (a b : Option Int),
        c.started = false →
        (c.lastServer = none → (projectTimeLeft c now).1 = c.duration) ∧
        (∀ snap, c.lastServer = some snap →
            (projectTimeLeft c now).1 = snap.timeLeft) ∧
        projectTimeLeft { c with startTs := a } now =
          projectTimeLeft { c with startTs := b } now) := by
  constructor
  · intro s now a hst
    constructor <;> simp [timeLeftS, hst]
  · intro c now a b hs
    refine ⟨fun hl => ?_, fun snap hl => ?_, ?_⟩
    · simp [projectTimeLeft, hs, hl]
    · simp [projectTimeLeft, hs, hl]
    · cases c.lastServer <;> simp [projectTimeLeft, hs]

/-- C6 witness: the NotStarted session reports its full duration and
the pre-start client projection ignores `startTs`. -/
theorem notStarted_reads_duration_witness :
    timeLeftS sampleNotStarted 5000 = (sampleNotStarted.duration : Int) ∧
    timeLeftS { sampleNotStarted with startedAt := some 77 } 5000 =
      (sampleNotStarted.duration : Int) :=
  notStarted_reads_duration.1 sampleNotStarted 5000 (some 77) rfl

/-- C8: a guess whose raw text trims to empty is rejected with
reason `empty` while the session is running, with no state change, no
logged event, and without consulting the catalog; on the client a
trimmed-empty input never issues a request. -/
theorem empty_guess_rejected :
    (∀ (catalog catalog2 : List String) (s : GameSession)
        (p raw : String) (now : Int),
        statusAt s now = .running → strTrim raw = "" →
        submitGuess catalog s p raw now = (⟨false, some .empty, [], none⟩, s) ∧
        submitGuess catalog s p raw now = submitGuess catalog2 s p raw now) ∧
    (∀ (running paused : Bool) (tl : Int)
        (input lobbyId playerName : String) (submitting : Bool),
        strTrim input = "" →
        clientSubmitGuess running paused tl input lobbyId playerName
          submitting = none) := by
  constructor
  · intro catalog catalog2 s p raw now hst ht
    constructor <;> simp [submitGuess, hst, ht]
  · intro running paused tl input lobbyId playerName submitting ht
    unfold clientSubmitGuess
    split
    · rfl
    · simp [ht]

/-- C8 witness: a whitespace-only guess at a concrete running
session, and a whitespace-only client input. -/
theorem empty_guess_rejected_witness :
    submitGuess [("Bulbasaur" : String)] sampleSession ("A") ("   ") 10000 =
      (⟨false, some .empty, [], none⟩, sampleSession) ∧
    clientSubmitGuess true false 800 ("   ") ("L1") ("A") false = none :=
  ⟨(empty_guess_rejected.1 [("Bulbasaur" : String)] [] sampleSession ("A")
      ("   ") 10000 (by decide) (by decide)).1,
   empty_guess_rejected.2 true false 800 ("   ") ("L1") ("A") false (by decide)⟩

theorem statusAt_running_inv {s : GameSession} {now : Int}
    (h : statusAt s now = .running) :
    s.status = .running ∧ elapsedMs s now < (s.duration : Int) * 1000 := by
  unfold statusAt at h
  cases hst : s.status <;> rw [hst] at h
  · exact absurd h (by simp)
  · constructor
    · rfl
    · by_cases hle : (s.duration : Int) * 1000 ≤ elapsedMs s now
      · rw [if_pos hle] at h
        exact absurd h (by simp)
      · omega
  · by_cases hle : (s.duration : Int) * 1000 ≤ elapsedMs s now <;>
      simp [hle] at h

theorem pause_ok_inv {s s1 : GameSession} {tp : Int}
    (h : pause s tp = .ok s1) :
    statusAt s tp = .running ∧
    s1 = { s with status := .paused, pauseStartedAt := some tp } := by
  unfold pause at h
  cases hst : statusAt s tp <;> rw [hst] at h <;> simp_all

theorem start_ok_of_paused {s1 s2 : GameSession} {tr ps : Int}
    (hst : s1.status = .paused) (hps : s1.pauseStartedAt = some ps)
    (h : start s1 tr = .ok s2) :
    s2 = { s1 with status := .running,
                   pausedAccum := s1.pausedAccum + (tr - ps),
                   pauseStartedAt := none } := by
  unfold start statusAt at h
  rw [hst, hps] at h
  by_cases hle : (s1.duration : Int) * 1000 ≤ elapsedMs s1 tr
  · simp [hle] at h
  · simp [hle] at h
    exact h.symm

theorem elapsedMs_mono {s : GameSession} {now nowL : Int}
    (hwf : StateWF s) (hns : s.status ≠ .notStarted) (h : now ≤ nowL) :
    elapsedMs s now ≤ elapsedMs s nowL := by
  obtain ⟨-, hps, hrun, hsa⟩ := hwf
  obtain ⟨st, hst⟩ : ∃ st, s.startedAt = some st := by
    cases hsome : s.startedAt
    · exact absurd hsome (hsa hns)
    · exact ⟨_, rfl⟩
  cases hstat : s.status with
  | notStarted => exact absurd hstat hns
  | running =>
      simp only [elapsedMs, hst, hrun hstat]
      omega
  | paused =>
      obtain ⟨ps, hp⟩ : ∃ ps, s.pauseStartedAt = some ps := by
        cases hsome : s.pauseStartedAt
        · exact absurd hsome (hps hstat)
        · exact ⟨_, rfl⟩
      simp only [elapsedMs, hst, hp]
      omega

theorem statusAt_eq_ended {s : GameSession} {now : Int} :
    statusAt s now = .ended ↔
      s.status ≠ .notStarted ∧
      (s.duration : Int) * 1000 ≤ elapsedMs s now := by
  unfold statusAt
  cases hst : s.status <;> simp [hst] <;>
    by_cases hd : (s.duration : Int) * 1000 ≤ elapsedMs s now <;> simp [hd]

theorem statusAt_ended_persist {s : GameSession} {now nowL : Int}
    (hwf : StateWF s) (h : statusAt s now = .ended) (hle : now ≤ nowL) :
    statusAt s nowL = .ended := by
  obtain ⟨hns, hd⟩ := statusAt_eq_ended.mp h
  exact statusAt_eq_ended.mpr
    ⟨hns, le_trans hd (elapsedMs_mono hwf hns hle)⟩

/-- C5: pausing and later resuming preserves `timeLeft` exactly at
its pause-moment value — the paused interval is added to `pausedAccum`
and so excluded from the elapsed time — and while paused the reported
value is frozen; on the client, while the paused flag is set the
projection returns the frozen monotonic value regardless of `now`. -/
theorem pause_resume_preserves_timeLeft :
    (∀ (s s1 s2 : GameSession) (tp tr : Int),
        s.pauseStartedAt = none →
        pause s tp = .ok s1 →
        start s1 tr = .ok s2 →
        timeLeftS s2 tr = timeLeftS s tp ∧
        (∀ n : Int, timeLeftS s1 n = timeLeftS s tp)) ∧
    (∀ (c : ClientTimer) (m : Int) (now1 now2 : Int),
        c.started = true → c.paused = true → c.monotonic = some m →
        (projectTimeLeft c now1).1 = m ∧
        (projectTimeLeft c now1).1 = (projectTimeLeft c now2).1) := by
  constructor
  · intro s s1 s2 tp tr hnops hpause hstart
    obtain ⟨hrun, hs1⟩ := pause_ok_inv hpause
    obtain ⟨hsrun, -⟩ := statusAt_running_inv hrun
    have hs2 := start_ok_of_paused (by rw [hs1]) (by rw [hs1]) hstart
    have hE2 : elapsedMs s2 tr = elapsedMs s tp := by
      subst hs2 hs1
      simp only [elapsedMs]
      cases s.startedAt <;> simp [hnops] <;> omega
    have hE1 : ∀ n : Int, elapsedMs s1 n = elapsedMs s tp := by
      intro n
      subst hs1
      simp only [elapsedMs]
      cases s.startedAt <;> simp [hnops] <;> omega
    constructor
    · have hst2 : s2.status = .running := by rw [hs2, hs1]
      have hd2 : s2.duration = s.duration := by rw [hs2, hs1]
      simp only [timeLeftS, hst2, hsrun, hd2, hE2]
    · intro n
      have hst1 : s1.status = .paused := by rw [hs1]
      have hd1 : s1.duration = s.duration := by rw [hs1]
      simp only [timeLeftS, hst1, hsrun, hd1, hE1 n]
  · intro c m now1 now2 hs hp hm
    constructor <;> simp [projectTimeLeft, hs, hp, hm]

/-- C5 witness: pausing the sample session at t = 100 s of a 900 s
run and resuming 50 s later leaves `timeLeft` at the pause-moment value
800 s, and the paused client projection is frozen at the monotonic
value. -/
theorem pause_resume_preserves_timeLeft_witness :
    timeLeftS sampleResumed 150000 = timeLeftS sampleSession 100000 ∧
    timeLeftS sampleSession 100000 = 800 ∧
    (projectTimeLeft samplePausedTimer 123456).1 = 800 :=
  ⟨(pause_resume_preserves_timeLeft.1 sampleSession samplePaused
      sampleResumed 100000 150000 rfl (by rfl) (by rfl)).1,
   by decide,
   (pause_resume_preserves_timeLeft.2 samplePausedTimer 800 123456 0
      rfl rfl rfl).1⟩

/-- C2: once elapsed time reaches the duration the session is
terminally Ended — every later read reports Ended and every later
`start`, `pause` or `submitGuess` is rejected with `game_over`, leaving
the state unchanged — and on the client, a computed `timeLeft` of 0
clears the running flag and a non-positive `timeLeft` makes the submit
handler return without issuing a request. -/
theorem ended_terminal :
    (∀ (catalog : List String) (s : GameSession) (p raw : String)
        (now nowL : Int),
        StateWF s → statusAt s now = .ended → now ≤ nowL →
        statusAt s nowL = .ended ∧
        start s nowL = .error .game_over ∧
        pause s nowL = .error .game_over ∧
        submitGuess catalog s p raw nowL =
          (⟨false, some .game_over, [], none⟩, s)) ∧
    (∀ running : Bool, runningAfterTick 0 running = false) ∧
    (∀ (running paused : Bool) (tl : Int)
        (input lobbyId playerName : String) (submitting : Bool),
        tl ≤ 0 →
        clientSubmitGuess running paused tl input lobbyId playerName
          submitting = none) := by
  refine ⟨?_, ?_, ?_⟩
  · intro catalog s p raw now nowL hwf hend hle
    have hE : statusAt s nowL = .ended := statusAt_ended_persist hwf hend hle
    exact ⟨hE, by simp [start, hE], by simp [pause, hE],
      by simp [submitGuess, hE]⟩
  · intro running
    cases running <;> simp [runningAfterTick]
  · intro running paused tl input lobbyId playerName submitting h
    simp [clientSubmitGuess, h]

theorem sampleSession_wf : StateWF sampleSession :=
  ⟨fun h => by simp [sampleSession] at h,
   fun h => by simp [sampleSession] at h,
   fun _ => rfl,
   fun _ => by simp [sampleSession]⟩

/-- C2 witness: the sample session 5 s past expiry, and the client
guards at `timeLeft = 0`. -/
theorem ended_terminal_witness :
    (statusAt sampleSession 905000 = .ended ∧
      start sampleSession 905000 = .error .game_over ∧
      pause sampleSession 905000 = .error .game_over ∧
      submitGuess [("Bulbasaur" : String)] sampleSession ("A") ("pikachu")
        905000 = (⟨false, some .game_over, [], none⟩, sampleSession)) ∧
    clientSubmitGuess true false 0 ("pikachu") ("L1") ("A") false = none :=
  ⟨ended_terminal.1 [("Bulbasaur" : String)] sampleSession ("A") ("pikachu")
      900000 905000 sampleSession_wf (by decide) (by decide),
   ended_terminal.2.2 true false 0 ("pikachu") ("L1") ("A") false (by decide)⟩

/-- C10: the client's fallback roster update after an accepted guess
with no players array keeps the list length, leaves every entry whose
name differs from the submitting player unchanged, and increments the
score of an entry matching the submitting player by exactly 1, keeping
its name. -/
theorem fallback_increment_frame (players : List Player) (name : String) :
    (fallbackIncrement players name).length = players.length ∧
    (∀ (i : Nat) (p : Player), players[i]? = some p → p.name ≠ name →
        (fallbackIncrement players name)[i]? = some p) ∧
    (∀ (i : Nat) (p : Player), players[i]? = some p → p.name = name →
        (fallbackIncrement players name)[i]? = some ⟨p.name, p.score + 1⟩) := by
  refine ⟨by simp [fallbackIncrement], ?_, ?_⟩ <;>
    · intro i p hp hname
      simp [fallbackIncrement, List.getElem?_map, hp, hname]

/-- C10 witness: the fallback update at a concrete roster. -/
theorem fallback_increment_frame_witness :
    (fallbackIncrement [⟨"A", 3⟩, ⟨"B", 5⟩] ("A"))[1]? = some ⟨"B", 5⟩ ∧
    (fallbackIncrement [⟨"A", 3⟩, ⟨"B", 5⟩] ("A"))[0]? = some ⟨"A", 4⟩ :=
  ⟨(fallback_increment_frame [⟨"A", 3⟩, ⟨"B", 5⟩] ("A")).2.1 1 ⟨"B", 5⟩
      (by decide) (by decide),
   (fallback_increment_frame [⟨"A", 3⟩, ⟨"B", 5⟩] ("A")).2.2 0 ⟨"A", 3⟩
      (by decide) (by decide)⟩

theorem getLast?_drop_of_lt {α : Type} (l : List α) (k : Nat)
    (h : k < l.length) : (l.drop k).getLast? = l.getLast? := by
  induction l generalizing k with
  | nil => simp at h
  | cons x xs ih =>
      cases k with
      | zero => rfl
      | succ k =>
          have hk : k < xs.length := by simpa using h
          have hxs : xs ≠ [] := by
            intro he
            rw [he] at hk
            simp at hk
          rw [List.drop_succ_cons, ih k hk]
          obtain ⟨y, ys, rfl⟩ := List.exists_cons_of_ne_nil hxs
          exact List.getLast?_cons_cons.symm

/-- C7: the guess log is bounded: appending to a full log keeps it
at the 500-event cap dropping the oldest entry first, and the client
takes the last 500 entries of the server's oldest-first log and stores
them newest-first (the head of the client log is the most recent server
event). -/
theorem log_bounded_newest_first :
    (∀ (log : List GuessEvent) (e : GuessEvent),
        (appendBounded log e).length = min (log.length + 1) LOG_CAP) ∧
    (∀ (log : List GuessEvent) (e : GuessEvent), log.length = LOG_CAP →
        appendBounded log e = log.tail ++ [e]) ∧
    (∀ (nowMs : Int) (l : List WireEvent),
        (mapServerLog nowMs l).length = min l.length 500) ∧
    (∀ (nowMs : Int) (l : List WireEvent),
        (mapServerLog nowMs l).head? = (l.getLast?).map (convEntry nowMs)) := by
  refine ⟨?_, ?_, ?_, ?_⟩
  · intro log e
    simp [appendBounded, LOG_CAP]
    omega
  · intro log e h
    have h1 : (log ++ [e]).length - LOG_CAP = 1 := by
      simp [h, LOG_CAP]
    rw [appendBounded, h1, List.drop_append_of_le_length (by rw [h]; decide),
      List.drop_one]
  · intro nowMs l
    simp [mapServerLog]
    omega
  · intro nowMs l
    rcases List.eq_nil_or_concat l with rfl | ⟨l2, e, rfl⟩
    · rfl
    · rw [List.concat_eq_append, mapServerLog, List.head?_reverse,
        List.getLast?_map,
        getLast?_drop_of_lt (l2 ++ [e]) ((l2 ++ [e]).length - 500)
          (by simp only [List.length_append, List.length_singleton]; omega)]

/-- C7 witness: appending to a 500-event log drops the oldest entry,
and a two-event server log maps to a newest-first client log. -/
theorem log_bounded_newest_first_witness :
    appendBounded
        (List.replicate 500 (⟨0, "A", "x", false, some .not_found, none, 0⟩ :
          GuessEvent)) ⟨1, "B", "y", true, none, some 3, 5⟩ =
      (List.replicate 500 (⟨0, "A", "x", false, some .not_found, none, 0⟩ :
          GuessEvent)).tail ++ [⟨1, "B", "y", true, none, some 3, 5⟩] ∧
    (mapServerLog 0 [⟨0, "A", "x", true, none, 10, [1]⟩,
        ⟨1, "B", "y", true, none, 11, [2]⟩]).head? =
      some (convEntry 0 ⟨1, "B", "y", true, none, 11, [2]⟩) :=
  ⟨log_bounded_newest_first.2.1 _ _ (by rw [List.length_replicate]; rfl),
   (log_bounded_newest_first.2.2.2 0 _).trans (by rfl)⟩

/-- C9 (amended): every rejected `submitGuess` result carries
exactly one reason code drawn from the six-code set {not_started,
paused, game_over, empty, not_found, duplicate}; the client's
friendly-message mapping has a dedicated message for every code in the
set; and the client's `GuessLogEntry.result` union covers every code in
the set except `paused`. -/
theorem reject_reason_codes :
    (∀ (catalog : List String) (s : GameSession) (p raw : String)
        (now : Int),
        (submitGuess catalog s p raw now).1.accepted = false →
        ∃ rc, (submitGuess catalog s p raw now).1.reason = some rc ∧
          reasonCode rc ∈ submitRejectReasons) ∧
    (friendlyGuessMessage ("not_started") = "Start the game first." ∧
     friendlyGuessMessage ("paused") = "Game is paused." ∧
     friendlyGuessMessage ("game_over") = "Game finished – start a new round." ∧
     friendlyGuessMessage ("empty") = "Enter a Pokémon name first." ∧
     friendlyGuessMessage ("not_found") = "No matching Pokémon." ∧
     friendlyGuessMessage ("duplicate") = "Already guessed.") ∧
    (∀ code ∈ submitRejectReasons, code ≠ "paused" →
        code ∈ guessLogResultCodes) := by
  refine ⟨?_, by decide, by decide⟩
  intro catalog s p raw now hrej
  unfold submitGuess at hrej ⊢
  cases hst : statusAt s now <;> simp only [hst] at hrej ⊢
  · exact ⟨.not_started, rfl, by decide⟩
  · by_cases ht : strTrim raw = ""
    · simp only [ht, if_pos rfl]
      exact ⟨.empty, rfl, by decide⟩
    · simp only [if_neg ht] at hrej ⊢
      cases hres : resolve catalog raw <;> simp only [hres] at hrej ⊢
      · exact ⟨.not_found, rfl, by decide⟩
      · cases hlk : List.lookup _ s.guessed <;> simp only [hlk] at hrej ⊢
        · simp at hrej
        · exact ⟨.duplicate, rfl, by decide⟩
  · exact ⟨.paused, rfl, by decide⟩
  · exact ⟨.game_over, rfl, by decide⟩

/-- C9 counterexample: the server rejects a guess on a paused
session with reason `paused` — one of the six reject codes — but the
client's `GuessLogEntry.result` union type has no `paused` member. -/
theorem reject_reason_codes_counterexample :
    (submitGuess [] samplePaused ("A") ("pikachu") 150000).1.reason =
      some .paused ∧
    reasonCode .paused ∈ submitRejectReasons ∧
    reasonCode .paused ∉ guessLogResultCodes := by decide

/-- C9 witness: a rejected guess on the not-started sample session
carries a reason from the six-code set, and a non-`paused` code is
representable by the client log entry type. -/
theorem reject_reason_codes_witness :
    (∃ rc, (submitGuess [] sampleNotStarted ("A") ("pikachu") 50).1.reason =
        some rc ∧ reasonCode rc ∈ submitRejectReasons) ∧
    ("empty" ∈ guessLogResultCodes) :=
  ⟨reject_reason_codes.1 [] sampleNotStarted ("A") ("pikachu") 50 (by decide),
   reject_reason_codes.2.2 ("empty") (by decide) (by decide)⟩

theorem lookup_isSome_cons {g : List (Nat × String)} {r a : Nat} {b : String}
    (h : (List.lookup r g).isSome = true) :
    (List.lookup r ((a, b) :: g)).isSome = true := by
  by_cases hra : r = a
  · simp [List.lookup_cons, hra]
  · simp [List.lookup_cons, beq_false_of_ne hra, h]

theorem mem_acceptedRanks {log : List GuessEvent} {r : Nat} :
    r ∈ acceptedRanks log ↔
      ∃ e ∈ log, e.accepted = true ∧ e.rank = some r := by
  unfold acceptedRanks
  simp only [List.mem_filterMap]
  constructor
  · rintro ⟨e, he, hf⟩
    by_cases ha : e.accepted <;> simp [ha] at hf
    exact ⟨e, he, ha, hf⟩
  · rintro ⟨e, he, ha, hr⟩
    exact ⟨e, he, by simp [ha, hr]⟩

theorem acceptedRanks_sublist {l1 l2 : List GuessEvent}
    (h : List.Sublist l1 l2) :
    List.Sublist (acceptedRanks l1) (acceptedRanks l2) :=
  List.Sublist.filterMap _ h

theorem acceptedRanks_appendBounded_rejected {log : List GuessEvent}
    {ev : GuessEvent} (hacc : ev.accepted = false)
    (h : (acceptedRanks log).Nodup) :
    (acceptedRanks (appendBounded log ev)).Nodup := by
  have hsub : List.Sublist (acceptedRanks (appendBounded log ev))
      (acceptedRanks (log ++ [ev])) :=
    acceptedRanks_sublist (List.drop_sublist _ _)
  have heq : acceptedRanks (log ++ [ev]) = acceptedRanks log := by
    simp [acceptedRanks, List.filterMap_append, hacc]
  rw [heq] at hsub
  exact h.sublist hsub

theorem LogWF_reject_log {s : GameSession} {ev : GuessEvent} {n : Nat}
    (hwf : LogWF s) (hacc : ev.accepted = false) :
    LogWF { s with log := appendBounded s.log ev, nextId := n } := by
  obtain ⟨hkeys, hnd⟩ := hwf
  constructor
  · intro e he hea
    have hmem : e ∈ s.log ++ [ev] := (List.drop_sublist _ _).mem he
    rcases List.mem_append.mp hmem with h1 | h2
    · exact hkeys e h1 hea
    · rw [List.mem_singleton.mp h2] at hea
      rw [hacc] at hea
      cases hea
  · exact acceptedRanks_appendBounded_rejected hacc hnd

theorem LogWF_accept {s : GameSession} {rank : Nat} {p raw : String}
    {now : Int} {n : Nat}
    (hwf : LogWF s) (hnone : List.lookup rank s.guessed = none) :
    LogWF { s with
      guessed := (rank, p) :: s.guessed,
      players := incScore s.players p,
      log := appendBounded s.log ⟨s.nextId, p, raw, true, none, some rank, now⟩,
      nextId := n } := by
  obtain ⟨hkeys, hnd⟩ := hwf
  have hnotmem : rank ∉ acceptedRanks s.log := by
    intro hmem
    obtain ⟨e, he, ha, hr⟩ := mem_acceptedRanks.mp hmem
    obtain ⟨r, hr2, hl⟩ := hkeys e he ha
    rw [hr] at hr2
    cases hr2
    rw [hnone] at hl
    cases hl
  constructor
  · intro e he hea
    have hmem : e ∈ s.log ++ [⟨s.nextId, p, raw, true, none, some rank, now⟩] :=
      (List.drop_sublist _ _).mem he
    rcases List.mem_append.mp hmem with h1 | h2
    · obtain ⟨r, hr, hl⟩ := hkeys e h1 hea
      exact ⟨r, hr, lookup_isSome_cons hl⟩
    · rw [List.mem_singleton.mp h2]
      exact ⟨rank, rfl, by simp [List.lookup_cons]⟩
  · have hsub : List.Sublist
        (acceptedRanks (appendBounded s.log
          ⟨s.nextId, p, raw, true, none, some rank, now⟩))
        (acceptedRanks (s.log ++ [⟨s.nextId, p, raw, true, none, some rank, now⟩])) :=
      acceptedRanks_sublist (List.drop_sublist _ _)
    have heq : acceptedRanks
        (s.log ++ [⟨s.nextId, p, raw, true, none, some rank, now⟩]) =
        acceptedRanks s.log ++ [rank] := by
      simp [acceptedRanks, List.filterMap_append]
    rw [heq] at hsub
    refine List.Nodup.sublist hsub ?_
    simp [List.nodup_append, hnd, hnotmem]

theorem submitGuess_preserves_LogWF (catalog : List String)
    (s : GameSession) (p raw : String) (now : Int) (hwf : LogWF s) :
    LogWF (submitGuess catalog s p raw now).2 := by
  unfold submitGuess
  cases hst : statusAt s now <;> simp only []
  · exact hwf
  · by_cases ht : strTrim raw = ""
    · simp only [ht, if_pos rfl]
      exact hwf
    · simp only [if_neg ht]
      cases hres : resolve catalog raw <;> simp only []
      · exact LogWF_reject_log hwf rfl
      · cases hlk : List.lookup _ s.guessed <;> simp only []
        · exact LogWF_accept hwf hlk
        · exact LogWF_reject_log hwf rfl
  · exact hwf
  · exact hwf

theorem runGuesses_preserves_LogWF (catalog : List String)
    (calls : List (String × String × Int)) :
    ∀ s : GameSession, LogWF s → LogWF (runGuesses catalog s calls) := by
  induction calls with
  | nil => exact fun s h => h
  | cons c cs ih =>
      intro s h
      exact ih _ (submitGuess_preserves_LogWF catalog s c.1 c.2.1 c.2.2 h)

theorem submitGuess_guessed_grows (catalog : List String) (s : GameSession)
    (p raw : String) (now : Int) (r : Nat)
    (h : (List.lookup r s.guessed).isSome = true) :
    (List.lookup r (submitGuess catalog s p raw now).2.guessed).isSome
      = true := by
  unfold submitGuess
  cases hst : statusAt s now <;> simp only []
  · exact h
  · by_cases ht : strTrim raw = ""
    · simp only [ht, if_pos rfl]
      exact h
    · simp only [if_neg ht]
      cases hres : resolve catalog raw <;> simp only []
      · exact h
      · cases hlk : List.lookup _ s.guessed <;> simp only []
        · exact lookup_isSome_cons h
        · exact h
  · exact h
  · exact h

theorem runGuesses_guessed_grows (catalog : List String)
    (calls : List (String × String × Int)) (r : Nat) :
    ∀ s : GameSession, (List.lookup r s.guessed).isSome = true →
      (List.lookup r (runGuesses catalog s calls).guessed).isSome = true := by
  induction calls with
  | nil => exact fun s h => h
  | cons c cs ih =>
      intro s h
      exact ih _ (submitGuess_guessed_grows catalog s c.1 c.2.1 c.2.2 r h)

theorem lookup_mapReplace {g : List (Nat × String)} {p q : Nat}
    {raw : String} (hne : q ≠ p) :
    List.lookup q (g.map fun kv => if kv.1 = p then (p, raw) else kv) =
      List.lookup q g := by
  induction g with
  | nil => rfl
  | cons kv g ih =>
      obtain ⟨a, b⟩ := kv
      by_cases hap : a = p
      · subst hap
        simp only [List.map_cons, if_pos rfl]
        rw [List.lookup_cons, List.lookup_cons]
        simp [beq_false_of_ne hne, ih]
      · simp only [List.map_cons, if_neg (by simpa using hap)]
        rw [List.lookup_cons, List.lookup_cons]
        by_cases hqa : q = a <;> simp [hqa, beq_false_of_ne, ih]

theorem lookup_append_single {g : List (Nat × String)} {p q : Nat}
    {raw : String} (hne : q ≠ p) :
    List.lookup q (g ++ [(p, raw)]) = List.lookup q g := by
  induction g with
  | nil => simp [List.lookup_cons, beq_false_of_ne hne, List.lookup]
  | cons kv g ih =>
      obtain ⟨a, b⟩ := kv
      rw [List.cons_append, List.lookup_cons, List.lookup_cons]
      by_cases hqa : q = a <;> simp [hqa, ih]

theorem mapSet_lookup_other {g : List (Nat × String)} {p q : Nat}
    {raw : String} (hne : q ≠ p) :
    List.lookup q (mapSet g p raw) = List.lookup q g := by
  unfold mapSet
  split
  · exact lookup_mapReplace hne
  · exact lookup_append_single hne

theorem optimisticStep_preserves {g : List (Nat × String)} {pos q : Nat}
    {raw v : String} (hv : List.lookup q g = some v) (hne : v ≠ "") :
    List.lookup q (optimisticStep raw g pos) = some v := by
  unfold optimisticStep
  by_cases hqp : q = pos
  · subst hqp
    rw [hv]
    simp [hne, hv]
  · cases hw : List.lookup pos g <;> simp only []
    · rw [mapSet_lookup_other hqp]
      exact hv
    · split
      · rw [mapSet_lookup_other hqp]
        exact hv
      · exact hv

theorem optimistic_preserves (positions : List Nat) :
    ∀ (g : List (Nat × String)) (raw : String) (pos : Nat) (v : String),
      List.lookup pos g = some v → v ≠ "" →
      List.lookup pos (optimisticGuessed g positions raw) = some v := by
  induction positions with
  | nil => exact fun g raw pos v hv _ => hv
  | cons p ps ih =>
      intro g raw pos v hv hne
      exact ih (optimisticStep raw g p) raw pos v
        (optimisticStep_preserves hv hne) hne

/-- C1 (amended): accepted guess events reference pairwise-distinct
species ranks after any serialized sequence of `submitGuess` calls; a
guess for an unguessed species is accepted and records its rank; any
later guess resolving to an already-recorded rank — by any player, after
any further calls — is rejected with `duplicate`; and the client's
optimistic update never overwrites a position already present in the
guessed map with a non-empty name. -/
theorem guess_dedup_invariant :
    (∀ (catalog : List String) (s : GameSession)
        (calls : List (String × String × Int)),
        LogWF s → (acceptedRanks (runGuesses catalog s calls).log).Nodup) ∧
    (∀ (catalog : List String) (s : GameSession) (p raw : String)
        (now : Int) (rank : Nat),
        statusAt s now = .running → strTrim raw ≠ "" →
        resolve catalog raw = some rank →
        List.lookup rank s.guessed = none →
        (submitGuess catalog s p raw now).1.accepted = true ∧
        List.lookup rank (submitGuess catalog s p raw now).2.guessed
          = some p) ∧
    (∀ (catalog : List String) (s : GameSession)
        (calls : List (String × String × Int)) (p raw : String)
        (now : Int) (rank : Nat),
        (List.lookup rank s.guessed).isSome = true →
        statusAt (runGuesses catalog s calls) now = .running →
        strTrim raw ≠ "" → resolve catalog raw = some rank →
        (submitGuess catalog (runGuesses catalog s calls) p raw now).1.accepted
            = false ∧
        (submitGuess catalog (runGuesses catalog s calls) p raw now).1.reason
            = some .duplicate) ∧
    (∀ (g : List (Nat × String)) (positions : List Nat) (raw : String)
        (pos : Nat) (v : String),
        List.lookup pos g = some v → v ≠ "" →
        List.lookup pos (optimisticGuessed g positions raw) = some v) := by
  refine ⟨?_, ?_, ?_, ?_⟩
  · intro catalog s calls hwf
    exact (runGuesses_preserves_LogWF catalog calls s hwf).2
  · intro catalog s p raw now rank hst ht hres hnone
    constructor <;> simp [submitGuess, hst, ht, hres, hnone, List.lookup_cons]
  · intro catalog s calls p raw now rank hsome hst ht hres
    obtain ⟨v, hv⟩ := Option.isSome_iff_exists.mp
      (runGuesses_guessed_grows catalog calls rank s hsome)
    constructor <;> simp [submitGuess, hst, ht, hres, hv]
  · intro g positions raw pos v hv hne
    exact optimistic_preserves positions g raw pos v hv hne

/-- C1 counterexample: the claim that a position already present in
the client's guessed map is never overwritten fails when the stored name
is the empty string — the JavaScript truthiness guard `!next[pos]` then
allows the assignment. -/
theorem optimistic_overwrite_counterexample :
    List.lookup 1 [(1, "")] = some ("") ∧
    List.lookup 1 (optimisticGuessed [(1, "")] [1] ("x")) = some ("x") := by
  decide

theorem sampleSession_logWF : LogWF sampleSession :=
  ⟨fun e he => absurd he (List.not_mem_nil e), List.Pairwise.nil⟩

/-- C1 witness: in a concrete race, player A's guess for Bulbasaur
is accepted, player B's subsequent guess for the same species (different
case) is rejected as `duplicate`, the accepted ranks of the resulting
log are duplicate-free, and the optimistic client update preserves an
existing non-empty entry. -/
theorem guess_dedup_invariant_witness :
    (acceptedRanks (runGuesses [("Bulbasaur" : String)] sampleSession
        [(("A" : String), ("bulbasaur" : String), (10000 : Int)),
         (("B" : String), ("Bulbasaur" : String), (11000 : Int))]).log).Nodup ∧
    (submitGuess [("Bulbasaur" : String)] sampleSession ("A") ("bulbasaur")
        10000).1.accepted = true ∧
    (submitGuess [("Bulbasaur" : String)]
        (runGuesses [("Bulbasaur" : String)] sampleAfterA [])
        ("B") ("Bulbasaur") 11000).1.reason = some .duplicate ∧
    List.lookup 1 (optimisticGuessed [(1, "bulbasaur")] [1] ("x"))
      = some ("bulbasaur") :=
  ⟨guess_dedup_invariant.1 [("Bulbasaur" : String)] sampleSession
      [(("A" : String), ("bulbasaur" : String), (10000 : Int)),
       (("B" : String), ("Bulbasaur" : String), (11000 : Int))]
      sampleSession_logWF,
   (guess_dedup_invariant.2.1 [("Bulbasaur" : String)] sampleSession ("A")
      ("bulbasaur") 10000 1 (by decide) (by decide) (by decide) (by decide)).1,
   (guess_dedup_invariant.2.2.1 [("Bulbasaur" : String)] sampleAfterA []
      ("B") ("Bulbasaur") 11000 1 (by decide) (by decide) (by decide)
      (by decide)).2,
   guess_dedup_invariant.2.2.2 [(1, "bulbasaur")] [1] ("x") 1 ("bulbasaur")
      (by decide) (by decide)⟩

end PokemonGame
